import Mathlib

set_option maxRecDepth 8000

/-!
# Verification of the userscript-x dev-server core

A shallow embedding of the rebuild coordinator, the reload-payload strip,
the live-update broadcast, the injected client runtime, the header
generator and the serving endpoint of the `usx` development server,
together with proofs of the specified properties.

Strings of the JavaScript source are modelled as `List Char`;
`String.prototype.indexOf` is modelled by `indexOf` returning `Option Nat`
(`none` for JavaScript's `-1`), `String.prototype.slice(i)` by `List.drop i`
and `String.prototype.trimStart` by dropping leading JavaScript whitespace.
-/

/-- The set of JavaScript `WhiteSpace`/`LineTerminator` code points that
`String.prototype.trimStart` removes. -/
def jsWhitespace (c : Char) : Bool :=
  c = ' ' || c = '\t' || c = '\n' || c = '\r' ||
  c = '\x0b' || c = '\x0c' || c = '\u00A0' || c = '\u1680' ||
  ('\u2000' ≤ c && c ≤ '\u200A') || c = '\u2028' || c = '\u2029' ||
  c = '\u202F' || c = '\u205F' || c = '\u3000' || c = '\uFEFF'

/-- `s.trimStart` of JavaScript: remove leading whitespace. -/
def trimStart (s : List Char) : List Char := s.dropWhile jsWhitespace

/-- `hay.indexOf(needle)` of JavaScript: position of the first occurrence of
`m` in `s`, `none` when there is none (JavaScript returns `-1`). -/
def indexOf (m : List Char) : List Char → Option Nat
  | [] => if m.isEmpty then some 0 else none
  | c :: rest =>
    if m.isPrefixOf (c :: rest) then some 0
    else (indexOf m rest).map (· + 1)

/-- `hay.indexOf(needle, start)` of JavaScript: first occurrence of `m` in
`s` at a position `≥ start`. -/
def indexOfFrom (m s : List Char) (start : Nat) : Option Nat :=
  (indexOf m (s.drop start)).map (· + start)

/-- `m` occurs in `s` at position `i`. -/
def occursAt (m s : List Char) (i : Nat) : Prop := m <+: s.drop i

instance (m s : List Char) (i : Nat) : Decidable (occursAt m s i) := by
  unfold occursAt; infer_instance

/-- Number of positions at which `m` occurs in `s`. -/
def countOccurrences (m s : List Char) : Nat :=
  ((List.range (s.length + 1)).filter (fun i => decide (occursAt m s i))).length

/-! ## The reload-payload strip of `notifyClients` (dev-server.ts) -/

/-- `"// ==/UserScript=="`, the header-end marker searched by
`notifyClients`. -/
def headerEndMarker : List Char := "// ==/UserScript==".toList

/-- `"// Hot reload client - injected in development mode"`, the start
marker of the injected client-runtime block. -/
def hotReloadMarker : List Char :=
  "// Hot reload client - injected in development mode".toList

/-- `"})();"`, the closing construct of the client-runtime IIFE. -/
def hotReloadEndMarker : List Char := "\x7d)();".toList

/-- Stage one of the strip in `notifyClients` (dev-server.ts lines 96-105):
drop everything up to and including the first `// ==/UserScript==` and trim
leading whitespace; if the marker is absent the content is kept unchanged. -/
def stripUserscriptHeader (scriptContent : List Char) : List Char :=
  match indexOf headerEndMarker scriptContent with
  | none => scriptContent
  | some headerEndIndex =>
    trimStart (scriptContent.drop (headerEndIndex + headerEndMarker.length))

/-- Stage two of the strip in `notifyClients` (dev-server.ts lines 107-123):
if the hot-reload start marker occurs, drop everything up to and including
the first `\x7d)();` at or after it and trim leading whitespace; otherwise
keep the code unchanged. -/
def stripHotReloadClient (code : List Char) : List Char :=
  match indexOf hotReloadMarker code with
  | none => code
  | some hotReloadIndex =>
    match indexOfFrom hotReloadEndMarker code hotReloadIndex with
    | none => code
    | some hotReloadEndIndex =>
      trimStart (code.drop (hotReloadEndIndex + hotReloadEndMarker.length))

/-- The complete reload-payload code computed by `notifyClients` from the
on-disk artifact text. -/
def reloadCode (scriptContent : List Char) : List Char :=
  stripHotReloadClient (stripUserscriptHeader scriptContent)

/-! ## Declarative first-occurrence characterizations -/

/-- `i` is the position of the first occurrence of `m` in `s`. -/
def FirstOccursAt (m s : List Char) (i : Nat) : Prop :=
  occursAt m s i ∧ ∀ j, occursAt m s j → i ≤ j

/-- `m` has no occurrence in `s` at or after position `start`. -/
def NoOccurFrom (m s : List Char) (start : Nat) : Prop :=
  ∀ j, start ≤ j → ¬ occursAt m s j

/-- `i` is the position of the first occurrence of `m` in `s` at or after
position `start`. -/
def FirstOccursFromAt (m s : List Char) (start i : Nat) : Prop :=
  start ≤ i ∧ occursAt m s i ∧ ∀ j, start ≤ j → occursAt m s j → i ≤ j

/-! ## The rebuild coordinator (dev-server.ts lines 156-190)

The dev server is single-threaded and event-driven: the only suspension
points of `rebuild` are the awaited `loadConfig`/`build` call, so its
behaviour is fully described by two atomic steps: `triggerRebuild` (a
watcher event calls `rebuild()`) and `finishBuild` (the awaited build
settles, successfully or not, and the tail of `rebuild` runs). -/

/-- The coordinator state: the two flags of dev-server.ts
(`let rebuilding = false; let needsRebuild = false;`) plus event counters
recording how many builds were started and completed, how many successful
builds broadcast to clients, and how many failures were reported. -/
structure RebuildState where
  rebuilding : Bool
  needsRebuild : Bool
  started : Nat
  completed : Nat
  broadcasts : Nat
  buildErrors : Nat
deriving Repr, DecidableEq

/-- The initial coordinator state. -/
def initialRebuildState : RebuildState :=
  { rebuilding := false, needsRebuild := false,
    started := 0, completed := 0, broadcasts := 0, buildErrors := 0 }

/-- The synchronous prefix of `rebuild()` (dev-server.ts lines 159-166): if a
build is in flight only set `needsRebuild`; otherwise mark busy and start a
build. -/
def triggerRebuild (s : RebuildState) : RebuildState :=
  if s.rebuilding then { s with needsRebuild := true }
  else { s with rebuilding := true, started := s.started + 1 }

/-- The tail of `rebuild()` after the awaited build settles (dev-server.ts
lines 168-190): on success `notifyClients` broadcasts, on failure the error
is reported; in both cases `rebuilding` is cleared and, if `needsRebuild`
was set, it is cleared and `rebuild()` is called again immediately. -/
def finishBuild (success : Bool) (s : RebuildState) : RebuildState :=
  let s1 : RebuildState :=
    { s with completed := s.completed + 1,
             broadcasts := s.broadcasts + (if success then 1 else 0),
             buildErrors := s.buildErrors + (if success then 0 else 1),
             rebuilding := false }
  if s1.needsRebuild then triggerRebuild { s1 with needsRebuild := false } else s1

/-- The events the coordinator reacts to: a watcher trigger, or the in-flight
build settling with success or failure. -/
inductive CoordEvent
  | trigger
  | done (success : Bool)
deriving Repr, DecidableEq

/-- One step of the coordinator. -/
def coordStep (s : RebuildState) : CoordEvent → RebuildState
  | .trigger => triggerRebuild s
  | .done success => finishBuild success s

/-- Run a sequence of events. -/
def runEvents (s : RebuildState) : List CoordEvent → RebuildState
  | [] => s
  | e :: es => runEvents (coordStep s e) es

/-- An event sequence is valid from `s` when a `done` event only occurs
while a build is in flight. -/
def validFrom (s : RebuildState) : List CoordEvent → Bool
  | [] => true
  | e :: es =>
    (match e with
     | CoordEvent.trigger => true
     | CoordEvent.done _ => s.rebuilding) && validFrom (coordStep s e) es

/-- The coordinator invariant: the number of builds in flight is
`started - completed`, it is `1` exactly while `rebuilding` and `0`
otherwise — so at most one build ever runs at a time. -/
def CoordInv (s : RebuildState) : Prop :=
  s.started = s.completed + (if s.rebuilding then 1 else 0)



/-! ## The injected hot-reload client template (cli.ts getHotReloadClient) -/

/-- The text of the hot-reload client template (cli.ts getHotReloadClient)
before the interpolated port. -/
def hotReloadClientPrefix : String :=
  "\n// Hot reload client - injected in development mode\n(function() \x7b\n  const HOT_RELOAD_PORT = "

/-- The text of the hot-reload client template after the interpolated port. -/
def hotReloadClientSuffix : String :=
  ";\n  let ws;\n  let reconnectTimer;\n\n  function connect() \x7b\n    try \x7b\n      ws = new WebSocket(`ws://localhost:$\x7bHOT_RELOAD_PORT\x7d`);\n\n      ws.onopen = () => \x7b\n        console.log(\x27[USX] Hot reload connected\x27);\n        if (reconnectTimer) \x7b\n          clearTimeout(reconnectTimer);\n          reconnectTimer = null;\n        \x7d\n      \x7d;\n\n      ws.onmessage = (event) => \x7b\n        const data = JSON.parse(event.data);\n\n        if (data.type === \x27reload\x27 && data.code) \x7b\n          console.log(\x27[USX] Hot reloading userscript...\x27);\n\n          try \x7b\n            // Call user-defined cleanup if available\n            if (typeof window.__USX_CLEANUP__ === \x27function\x27) \x7b\n              try \x7b\n                window.__USX_CLEANUP__();\n              \x7d catch (cleanupError) \x7b\n                console.warn(\x27[USX] Cleanup function error:\x27, cleanupError);\n              \x7d\n            \x7d\n\n            // Execute the new code\n            // Using indirect eval to run in global scope\n            (0, eval)(data.code);\n\n            console.log(\x27[USX] ✓ Hot reload complete\x27);\n          \x7d catch (error) \x7b\n            console.error(\x27[USX] Hot reload execution error:\x27, error);\n          \x7d\n        \x7d\n      \x7d;\n\n      ws.onclose = () => \x7b\n        console.log(\x27[USX] Hot reload disconnected, reconnecting...\x27);\n        // Reconnect after 1 second\n        reconnectTimer = setTimeout(connect, 1000);\n      \x7d;\n\n      ws.onerror = (error) => \x7b\n        console.error(\x27[USX] Hot reload error:\x27, error);\n        ws.close();\n      \x7d;\n    \x7d catch (error) \x7b\n      console.error(\x27[USX] Failed to connect to hot reload server:\x27, error);\n      reconnectTimer = setTimeout(connect, 1000);\n    \x7d\n  \x7d\n\n  // Start connection\n  connect();\n\n  // Cleanup on page unload\n  window.addEventListener(\x27beforeunload\x27, () => \x7b\n    if (ws) \x7b\n      ws.close();\n    \x7d\n    if (reconnectTimer) \x7b\n      clearTimeout(reconnectTimer);\n    \x7d\n  \x7d);\n\x7d)();\n"

/-- Decimal digit characters. -/
def digitChar : Nat → Char
  | 0 => '0'
  | 1 => '1'
  | 2 => '2'
  | 3 => '3'
  | 4 => '4'
  | 5 => '5'
  | 6 => '6'
  | 7 => '7'
  | 8 => '8'
  | 9 => '9'
  | _ + 10 => '0'

/-- Fuel-driven decimal rendering: with fuel at least one, the decimal
digits of `n` (most significant first). -/
def natToCharsAux : Nat → Nat → List Char
  | 0, _ => []
  | fuel + 1, n =>
    if n < 10 then [digitChar n]
    else natToCharsAux fuel (n / 10) ++ [digitChar (n % 10)]

/-- Decimal rendering of a natural number, as JavaScript template
interpolation renders the numeric `port` (`n + 1` fuel always suffices
since a number has at most `n + 1` digits). -/
def natToChars (n : Nat) : List Char := natToCharsAux (n + 1) n

/-- `getHotReloadClient(port)` of cli.ts: the client code injected into the
built artifact in development mode. -/
def getHotReloadClient (port : Nat) : List Char :=
  hotReloadClientPrefix.toList ++ natToChars port ++ hotReloadClientSuffix.toList

/-! ## The metadata header generator and config loader (builder.ts) -/

/-- A metadata value of config.ts: `string | string[]`. -/
inductive MetaValue
  | str (s : String)
  | arr (vs : List String)
deriving Repr, DecidableEq

/-- `UserscriptMetadata` of config.ts.  `namespace`, `match` and `include`
are Lean keywords, so those fields are renamed; `noframes` is used only for
its truthiness. -/
structure UserscriptMetadata where
  name : String
  nameSpace : Option String := none
  version : Option String := none
  description : Option String := none
  author : Option String := none
  match_ : Option MetaValue := none
  exclude : Option MetaValue := none
  include_ : Option MetaValue := none
  grant : Option MetaValue := none
  updateURL : Option String := none
  downloadURL : Option String := none
  supportURL : Option String := none
  icon : Option String := none
  runAt : Option String := none
  require : Option MetaValue := none
  resource : Option (List (String × String)) := none
  sandbox : Option String := none
  connect : Option MetaValue := none
  noframes : Bool := false
deriving Repr, DecidableEq

/-- `String.prototype.padEnd(n)`: pad with spaces up to length `n`. -/
def padEnd (s : String) (n : Nat) : String :=
  s ++ String.mk (List.replicate (n - s.length) ' ')

/-- One generated metadata line: `// @<key padded to 12> <value>`. -/
def metaLine (key : String) (v : String) : List Char :=
  ("// @" ++ padEnd key 12 ++ " " ++ v).toList

/-- The `addLine` helper of `generateHeader`: skip undefined values, emit one
line per array element, one line for a plain string. -/
def addLine (key : String) : Option MetaValue → List (List Char)
  | none => []
  | some (MetaValue.str v) => [metaLine key v]
  | some (MetaValue.arr vs) => vs.map (metaLine key)

/-- `addLine` applied to a plain optional string field. -/
def addLineStr (key : String) (v : Option String) : List (List Char) :=
  addLine key (v.map MetaValue.str)

/-- The `resource` record entries, one `// @resource name url` line each. -/
def resourceLines : Option (List (String × String)) → List (List Char)
  | none => []
  | some rs => rs.map (fun nu => metaLine "resource" (nu.1 ++ " " ++ nu.2))

/-- The lines of `generateHeader` (builder.ts lines 33-83), in source order. -/
def headerLines (metadata : UserscriptMetadata) : List (List Char) :=
  ["// ==UserScript==".toList]
  ++ addLineStr "name" (some metadata.name)
  ++ addLineStr "namespace" metadata.nameSpace
  ++ addLineStr "version" metadata.version
  ++ addLineStr "description" metadata.description
  ++ addLineStr "author" metadata.author
  ++ addLine "match" metadata.match_
  ++ addLine "exclude" metadata.exclude
  ++ addLine "include" metadata.include_
  ++ addLineStr "icon" metadata.icon
  ++ addLine "grant" metadata.grant
  ++ addLine "require" metadata.require
  ++ resourceLines metadata.resource
  ++ addLine "connect" metadata.connect
  ++ addLineStr "run-at" metadata.runAt
  ++ addLineStr "sandbox" metadata.sandbox
  ++ (if metadata.noframes then ["// @noframes".toList] else [])
  ++ addLineStr "updateURL" metadata.updateURL
  ++ addLineStr "downloadURL" metadata.downloadURL
  ++ addLineStr "supportURL" metadata.supportURL
  ++ ["// ==/UserScript==".toList, []]

/-- `lines.join("\n")`. -/
def joinLines : List (List Char) → List Char
  | [] => []
  | [l] => l
  | l :: ls => l ++ '\n' :: joinLines ls

/-- `generateHeader(metadata)` of builder.ts. -/
def generateHeader (metadata : UserscriptMetadata) : List Char :=
  joinLines (headerLines metadata)

/-- The banner of `build` (builder.ts lines 124-129): the generated header,
followed in dev mode (with a truthy port) by a newline and the hot-reload
client. -/
def bannerText (metadata : UserscriptMetadata) (dev : Bool) (hotReloadPort : Nat) :
    List Char :=
  generateHeader metadata ++
    (if dev && hotReloadPort != 0 then '\n' :: getHotReloadClient hotReloadPort else [])

/-- A built artifact: the banner followed by whatever the bundler emits. -/
def builtArtifact (metadata : UserscriptMetadata) (dev : Bool) (hotReloadPort : Nat)
    (compiledCode : List Char) : List Char :=
  bannerText metadata dev hotReloadPort ++ compiledCode

/-- The `build.outDir`/`build.outFile` options of config.ts. -/
structure BuildOutputOptions where
  outDir : Option String := none
  outFile : Option String := none
deriving Repr, DecidableEq

/-- A validated `UserscriptConfig` of config.ts. -/
structure UserscriptConfig where
  metadata : UserscriptMetadata
  build : Option BuildOutputOptions := none
deriving Repr, DecidableEq

/-- What dynamically importing a config file yields before validation:
`metadata` may be missing. -/
structure RawConfigModule where
  metadata : Option UserscriptMetadata := none
  build : Option BuildOutputOptions := none
deriving Repr, DecidableEq

/-- `loadConfig(configPath)` of builder.ts (lines 10-28) against the current
file-system state `files`: error when the file is absent or exports no
metadata, otherwise the validated config. -/
def loadConfig (files : String → Option RawConfigModule) (configPath : String) :
    Except String UserscriptConfig :=
  match files configPath with
  | none => Except.error ("Config file not found: " ++ configPath)
  | some m =>
    match m.metadata with
    | none => Except.error "Invalid config: must export a config with metadata"
    | some md => Except.ok { metadata := md, build := m.build }

/-- The argument record of the `build(...)` call issued by `rebuild`. -/
structure BuildInvocation where
  config : UserscriptConfig
  dev : Bool
  hotReloadPort : Nat
deriving Repr, DecidableEq

/-- The configuration half of one `rebuild` attempt (dev-server.ts lines
168-175): `startupConfig` is the config captured by the `startDevServer`
closure at startup; the body calls `loadConfig` afresh on the current
file-system state and passes `freshConfig` — not `startupConfig` — to
`build`. -/
def rebuildBuildInvocation (startupConfig : UserscriptConfig)
    (files : String → Option RawConfigModule) (configPath : String) (wsPort : Nat) :
    Except String BuildInvocation :=
  (loadConfig files configPath).map (fun freshConfig =>
    { config := freshConfig, dev := true, hotReloadPort := wsPort })

/-! ## The live-update broadcast (dev-server.ts lines 125-131) -/

/-- A connected WebSocket client: its identity and its transport
`readyState` (`1` is OPEN). -/
structure WsClient where
  clientId : Nat
  readyState : Nat
deriving Repr, DecidableEq

/-- Hexadecimal digit characters (for JSON control-character escapes). -/
def hexDigitChar : Nat → Char
  | 0 => '0'
  | 1 => '1'
  | 2 => '2'
  | 3 => '3'
  | 4 => '4'
  | 5 => '5'
  | 6 => '6'
  | 7 => '7'
  | 8 => '8'
  | 9 => '9'
  | 10 => 'a'
  | 11 => 'b'
  | 12 => 'c'
  | 13 => 'd'
  | 14 => 'e'
  | _ + 15 => 'f'

/-- `JSON.stringify` escaping of one character. -/
def jsonEscapeChar (c : Char) : List Char :=
  if c = '"' then ['\\', '"']
  else if c = '\\' then ['\\', '\\']
  else if c = '\n' then ['\\', 'n']
  else if c = '\r' then ['\\', 'r']
  else if c = '\t' then ['\\', 't']
  else if c = '\x08' then ['\\', 'b']
  else if c = '\x0c' then ['\\', 'f']
  else if c.toNat < 32 then
    ['\\', 'u', '0', '0', hexDigitChar (c.toNat / 16), hexDigitChar (c.toNat % 16)]
  else [c]

/-- `JSON.stringify` of a string value. -/
def jsonString (s : List Char) : List Char :=
  '"' :: (s.map jsonEscapeChar).flatten ++ ['"']

/-- `JSON.stringify({ type: "reload", code })`: the serialized reload
payload of `notifyClients`. -/
def reloadMessage (code : List Char) : List Char :=
  "\x7b\"type\":\"reload\",\"code\":".toList ++ jsonString code ++ "\x7d".toList

/-- The broadcast loop of `notifyClients` (dev-server.ts lines 126-131): for
each connected client in order, send the serialized payload exactly when its
`readyState` is OPEN; the result is the send log as (clientId, message)
pairs. -/
def broadcastReload (clients : List WsClient) (code : List Char) :
    List (Nat × List Char) :=
  (clients.filter (fun client => client.readyState == 1)).map
    (fun client => (client.clientId, reloadMessage code))

/-! ## The client runtime reload handler (cli.ts template lines 102-127) -/

/-- The outcome of running a piece of user JavaScript: normal return or a
thrown exception. -/
inductive JsOutcome
  | ok
  | throws
deriving Repr, DecidableEq

/-- The observable actions of the client runtime message handler. -/
inductive ClientAction
  | invokeCleanup
  | logCleanupWarning
  | execCode
  | logComplete
  | logExecError
  | closeChannel
deriving Repr, DecidableEq

/-- Sequencing of two JavaScript computations: the second runs only when the
first returns normally; an exception propagates. -/
def seqJs (a b : List ClientAction × JsOutcome) : List ClientAction × JsOutcome :=
  match a with
  | (acts, JsOutcome.ok) => (acts ++ b.1, b.2)
  | (acts, JsOutcome.throws) => (acts, JsOutcome.throws)

/-- `try { body } catch { handler-log }`: an exception in the
body is swallowed and the handler's log actions run. -/
def tryCatchJs (body : List ClientAction × JsOutcome) (handler : List ClientAction) :
    List ClientAction × JsOutcome :=
  match body with
  | (acts, JsOutcome.ok) => (acts, JsOutcome.ok)
  | (acts, JsOutcome.throws) => (acts ++ handler, JsOutcome.ok)

/-- The environment a reload payload meets in the page: whether
`window.__USX_CLEANUP__` is registered (and how it behaves), and how
evaluating the received code behaves. -/
structure ReloadContext where
  cleanup : Option JsOutcome
  execution : JsOutcome
deriving Repr, DecidableEq

/-- The cleanup section of the handler: if a cleanup capability is present,
invoke it inside its own try/catch that logs a warning on failure. -/
def cleanupStep (ctx : ReloadContext) : List ClientAction × JsOutcome :=
  match ctx.cleanup with
  | none => ([], JsOutcome.ok)
  | some outcome =>
    tryCatchJs ([ClientAction.invokeCleanup], outcome) [ClientAction.logCleanupWarning]

/-- The body of the reload branch of `ws.onmessage`: cleanup, then indirect
eval of the received code, then the completion log, all inside an outer
try/catch that logs an execution error. -/
def handleReload (ctx : ReloadContext) : List ClientAction × JsOutcome :=
  tryCatchJs
    (seqJs (cleanupStep ctx)
      (seqJs ([ClientAction.execCode], ctx.execution)
        ([ClientAction.logComplete], JsOutcome.ok)))
    [ClientAction.logExecError]

/-- A parsed wire message. -/
structure MessageData where
  type : String
  code : String
deriving Repr, DecidableEq

/-- `ws.onmessage` dispatch: the reload branch runs exactly when the type is
"reload" and the code is truthy (a non-empty string). -/
def onMessageReload (ctx : ReloadContext) (data : MessageData) :
    List ClientAction × JsOutcome :=
  if data.type == "reload" && data.code != "" then handleReload ctx
  else ([], JsOutcome.ok)

/-! ## The serving endpoint (dev-server.ts lines 49-73) -/

/-- An HTTP response as written by the request handler. -/
structure HttpResponse where
  status : Nat
  contentType : String
  accessControlAllowOrigin : Option String
  body : String
deriving Repr, DecidableEq

/-- The state of the artifact file on disk at request time. -/
inductive ArtifactFileState
  | absent
  | readError
  | content (text : String)
deriving Repr, DecidableEq

/-- The request handler of `createServer`: serve the artifact on `/` or
`/<outFile>`, 404 when it does not exist, 500 when reading throws, 404 for
every other path. -/
def handleRequest (outFile : String) (file : ArtifactFileState) (url : String) :
    HttpResponse :=
  if url == "/" ++ outFile || url == "/" then
    match file with
    | ArtifactFileState.absent =>
      { status := 404, contentType := "text/plain",
        accessControlAllowOrigin := none, body := "Userscript not found" }
    | ArtifactFileState.readError =>
      { status := 500, contentType := "text/plain",
        accessControlAllowOrigin := none, body := "Error reading userscript" }
    | ArtifactFileState.content text =>
      { status := 200, contentType := "text/javascript",
        accessControlAllowOrigin := some "*", body := text }
  else
    { status := 404, contentType := "text/plain",
      accessControlAllowOrigin := none, body := "Not found" }

/-! ## Facts about `indexOf`: it computes the least occurrence position -/

lemma occursAt_cons_succ {m : List Char} {c : Char} {rest : List Char} {i : Nat} :
    occursAt m (c :: rest) (i + 1) ↔ occursAt m rest i := Iff.rfl

lemma indexOf_some_occurs {m s : List Char} {i : Nat}
    (h : indexOf m s = some i) : occursAt m s i := by
  induction s generalizing i with
  | nil =>
    unfold indexOf at h
    by_cases hm : m.isEmpty
    · have hm' : m = [] := List.isEmpty_iff.mp hm
      simp [hm] at h
      subst h
      simp [occursAt, hm']
    · simp [hm] at h
  | cons c rest ih =>
    unfold indexOf at h
    by_cases hp : m.isPrefixOf (c :: rest)
    · simp [hp] at h
      subst h
      exact List.isPrefixOf_iff_prefix.mp hp
    · simp [hp] at h
      obtain ⟨i', hi', rfl⟩ := h
      exact occursAt_cons_succ.mpr (ih hi')

lemma indexOf_min {m s : List Char} {i : Nat}
    (h : indexOf m s = some i) : ∀ j, j < i → ¬ occursAt m s j := by
  induction s generalizing i with
  | nil =>
    unfold indexOf at h
    by_cases hm : m.isEmpty
    · simp [hm] at h
      intro j hj
      exact absurd hj (by omega)
    · simp [hm] at h
  | cons c rest ih =>
    unfold indexOf at h
    by_cases hp : m.isPrefixOf (c :: rest)
    · simp [hp] at h
      omega
    · simp [hp] at h
      obtain ⟨i', hi', rfl⟩ := h
      intro j hj
      match j with
      | 0 =>
        intro hocc
        exact hp (List.isPrefixOf_iff_prefix.mpr hocc)
      | j' + 1 =>
        rw [occursAt_cons_succ]
        exact ih hi' j' (by omega)

lemma indexOf_isSome_of_occurs {m s : List Char} {i : Nat}
    (h : occursAt m s i) : (indexOf m s).isSome := by
  induction s generalizing i with
  | nil =>
    have : m = [] := List.prefix_nil.mp (by simpa [occursAt] using h)
    subst this
    simp [indexOf]
  | cons c rest ih =>
    unfold indexOf
    by_cases hp : m.isPrefixOf (c :: rest)
    · simp [hp]
    · simp only [hp, if_false]
      match i with
      | 0 => exact absurd (List.isPrefixOf_iff_prefix.mpr h) hp
      | i' + 1 =>
        have := ih (occursAt_cons_succ.mp h)
        simpa [Option.isSome_map] using this

lemma indexOf_eq_some_of {m s : List Char} {i : Nat}
    (hocc : occursAt m s i) (hmin : ∀ j, j < i → ¬ occursAt m s j) :
    indexOf m s = some i := by
  have hs := indexOf_isSome_of_occurs hocc
  obtain ⟨i0, hi0⟩ := Option.isSome_iff_exists.mp hs
  have h1 := indexOf_some_occurs hi0
  have h2 := indexOf_min hi0
  rcases Nat.lt_trichotomy i0 i with h | h | h
  · exact absurd h1 (hmin i0 h)
  · rwa [h] at hi0
  · exact absurd hocc (h2 i h)

lemma indexOf_none_iff {m s : List Char} :
    indexOf m s = none ↔ ∀ i, ¬ occursAt m s i := by
  constructor
  · intro h i hocc
    have := indexOf_isSome_of_occurs hocc
    rw [h] at this
    simp at this
  · intro h
    cases hx : indexOf m s with
    | none => rfl
    | some i => exact absurd (indexOf_some_occurs hx) (h i)

lemma occursAt_length_bound {m s : List Char} {i : Nat}
    (h : occursAt m s i) (hm : m ≠ []) : i + m.length ≤ s.length := by
  have h1 : m.length ≤ s.length - i := by
    simpa using h.length_le
  have h2 : 1 ≤ m.length := List.length_pos.mpr hm
  omega

lemma occursAt_of_drop {m s : List Char} {k i : Nat}
    (h : occursAt m (s.drop k) i) : occursAt m s (i + k) := by
  unfold occursAt at *
  rw [List.drop_drop] at h
  rwa [Nat.add_comm]

lemma occursAt_append_iff {m s u : List Char} {i : Nat}
    (h : i + m.length ≤ s.length) :
    occursAt m (s ++ u) i ↔ occursAt m s i := by
  unfold occursAt
  rw [List.drop_append_eq_append_drop]
  have hi : i ≤ s.length := by omega
  have h0 : i - s.length = 0 := by omega
  rw [h0, List.drop_zero] at *
  exact List.isPrefix_append_of_length (by simp; omega)

lemma occursAt_append_right {m s u : List Char} {j : Nat}
    (h : occursAt m u j) : occursAt m (s ++ u) (s.length + j) := by
  unfold occursAt at *
  rw [List.drop_append_eq_append_drop]
  have h1 : s.length + j - s.length = j := by omega
  have h2 : s.drop (s.length + j) = [] := by
    apply List.drop_eq_nil_of_le
    omega
  rw [h1, h2, List.nil_append]
  exact h

lemma indexOf_append_some {m t u : List Char} {j : Nat}
    (h : indexOf m t = some j) (hm : m ≠ []) : indexOf m (t ++ u) = some j := by
  have hocc := indexOf_some_occurs h
  have hb := occursAt_length_bound hocc hm
  apply indexOf_eq_some_of
  · exact (occursAt_append_iff hb).mpr hocc
  · intro i hi hocc'
    have hb' : i + m.length ≤ t.length := by omega
    exact indexOf_min h i hi ((occursAt_append_iff hb').mp hocc')

/-! ## The strip functions only ever drop a prefix -/

lemma dropWhile_eq_drop_ex (p : Char → Bool) (s : List Char) :
    ∃ k, s.dropWhile p = s.drop k := by
  induction s with
  | nil => exact ⟨0, rfl⟩
  | cons c rest ih =>
    by_cases hp : p c
    · obtain ⟨k, hk⟩ := ih
      exact ⟨k + 1, by simp [List.dropWhile, hp, hk]⟩
    · exact ⟨0, by simp [List.dropWhile, hp]⟩

lemma trimStart_eq_drop_ex (s : List Char) : ∃ k, trimStart s = s.drop k :=
  dropWhile_eq_drop_ex jsWhitespace s

lemma stripUserscriptHeader_eq_of_none {s : List Char}
    (h : indexOf headerEndMarker s = none) : stripUserscriptHeader s = s := by
  simp only [stripUserscriptHeader, h]

lemma stripUserscriptHeader_eq_of_some {s : List Char} {i : Nat}
    (h : indexOf headerEndMarker s = some i) :
    stripUserscriptHeader s = trimStart (s.drop (i + headerEndMarker.length)) := by
  simp only [stripUserscriptHeader, h]

lemma stripHotReloadClient_eq_of_none {c : List Char}
    (h : indexOf hotReloadMarker c = none) : stripHotReloadClient c = c := by
  simp only [stripHotReloadClient, h]

lemma stripHotReloadClient_eq_of_noEnd {c : List Char} {j : Nat}
    (h1 : indexOf hotReloadMarker c = some j)
    (h2 : indexOfFrom hotReloadEndMarker c j = none) : stripHotReloadClient c = c := by
  simp only [stripHotReloadClient, h1, h2]

lemma stripHotReloadClient_eq_of_some {c : List Char} {j k : Nat}
    (h1 : indexOf hotReloadMarker c = some j)
    (h2 : indexOfFrom hotReloadEndMarker c j = some k) :
    stripHotReloadClient c = trimStart (c.drop (k + hotReloadEndMarker.length)) := by
  simp only [stripHotReloadClient, h1, h2]

lemma stripUserscriptHeader_drop (s : List Char) :
    ∃ k, stripUserscriptHeader s = s.drop k ∧
      (∀ i, indexOf headerEndMarker s = some i → i + headerEndMarker.length ≤ k) := by
  cases hx : indexOf headerEndMarker s with
  | none =>
    refine ⟨0, by rw [stripUserscriptHeader_eq_of_none hx, List.drop_zero], ?_⟩
    intro i hi
    simp at hi
  | some i =>
    obtain ⟨k, hk⟩ := trimStart_eq_drop_ex (s.drop (i + headerEndMarker.length))
    refine ⟨k + (i + headerEndMarker.length), ?_, ?_⟩
    · rw [stripUserscriptHeader_eq_of_some hx, hk, List.drop_drop]
      congr 1
      omega
    · intro i' hi'
      cases hi'
      omega

lemma stripHotReloadClient_drop (c : List Char) :
    ∃ k, stripHotReloadClient c = c.drop k := by
  cases hx : indexOf hotReloadMarker c with
  | none => exact ⟨0, by rw [stripHotReloadClient_eq_of_none hx, List.drop_zero]⟩
  | some j =>
    cases hy : indexOfFrom hotReloadEndMarker c j with
    | none => exact ⟨0, by rw [stripHotReloadClient_eq_of_noEnd hx hy, List.drop_zero]⟩
    | some k =>
      obtain ⟨k2, hk2⟩ := trimStart_eq_drop_ex (c.drop (k + hotReloadEndMarker.length))
      refine ⟨k2 + (k + hotReloadEndMarker.length), ?_⟩
      rw [stripHotReloadClient_eq_of_some hx hy, hk2, List.drop_drop]
      congr 1
      omega

/-! ## Counting occurrences -/

lemma two_le_length_of_two_mem {α : Type} {l : List α} {a b : α}
    (hab : a ≠ b) (ha : a ∈ l) (hb : b ∈ l) : 2 ≤ l.length := by
  match l with
  | [] => cases ha
  | [x] =>
    rw [List.mem_singleton] at ha hb
    exact absurd (ha.trans hb.symm) hab
  | x :: y :: t =>
    simp only [List.length_cons]
    omega

lemma two_le_countOccurrences {m s : List Char} {a b : Nat}
    (hm : m ≠ []) (ha : occursAt m s a) (hb : occursAt m s b) (hab : a ≠ b) :
    2 ≤ countOccurrences m s := by
  unfold countOccurrences
  apply two_le_length_of_two_mem hab
  · rw [List.mem_filter, List.mem_range]
    have := occursAt_length_bound ha hm
    have hlen : 1 ≤ m.length := List.length_pos.mpr hm
    exact ⟨by omega, by simpa using ha⟩
  · rw [List.mem_filter, List.mem_range]
    have := occursAt_length_bound hb hm
    have hlen : 1 ≤ m.length := List.length_pos.mpr hm
    exact ⟨by omega, by simpa using hb⟩

lemma occursAt_unique_of_count_le_one {m s : List Char} {a b : Nat}
    (hm : m ≠ []) (hc : countOccurrences m s ≤ 1)
    (ha : occursAt m s a) (hb : occursAt m s b) : a = b := by
  by_contra hab
  exact absurd (two_le_countOccurrences hm ha hb hab) (by omega)

lemma headerEndMarker_ne_nil : headerEndMarker ≠ [] := by decide
lemma hotReloadMarker_ne_nil : hotReloadMarker ≠ [] := by decide
lemma hotReloadEndMarker_ne_nil : hotReloadEndMarker ≠ [] := by decide

/-! ## Declarative first-occurrence characterizations (lemmas below) -/

lemma occursAt_drop_of_le {m s : List Char} {start j : Nat}
    (hj : start ≤ j) (h : occursAt m s j) : occursAt m (s.drop start) (j - start) := by
  unfold occursAt at *
  rw [List.drop_drop]
  have heq : start + (j - start) = j := by omega
  rwa [heq]

lemma indexOf_eq_some_iff_first {m s : List Char} {i : Nat} :
    indexOf m s = some i ↔ FirstOccursAt m s i := by
  constructor
  · intro h
    refine ⟨indexOf_some_occurs h, fun j hj => ?_⟩
    by_contra hij
    exact indexOf_min h j (by omega) hj
  · rintro ⟨hocc, hmin⟩
    exact indexOf_eq_some_of hocc (fun j hj hocc' => by
      have := hmin j hocc'
      omega)

lemma indexOfFrom_eq_some_iff {m s : List Char} {start i : Nat} :
    indexOfFrom m s start = some i ↔ FirstOccursFromAt m s start i := by
  unfold indexOfFrom FirstOccursFromAt
  constructor
  · intro h
    simp only [Option.map_eq_some'] at h
    obtain ⟨i0, hi0, rfl⟩ := h
    refine ⟨by omega, occursAt_of_drop (indexOf_some_occurs hi0), ?_⟩
    intro j hj hocc
    have h2 := occursAt_drop_of_le hj hocc
    have := indexOf_eq_some_iff_first.mp hi0
    have := this.2 _ h2
    omega
  · rintro ⟨hstart, hocc, hmin⟩
    have h1 : occursAt m (s.drop start) (i - start) := occursAt_drop_of_le hstart hocc
    have h2 : indexOf m (s.drop start) = some (i - start) := by
      apply indexOf_eq_some_of h1
      intro j hj hocc'
      have h3 : occursAt m s (j + start) := occursAt_of_drop hocc'
      have := hmin (j + start) (by omega) h3
      omega
    rw [h2]
    simp only [Option.map_some']
    congr 1
    omega

lemma indexOfFrom_eq_none_iff {m s : List Char} {start : Nat} :
    indexOfFrom m s start = none ↔ NoOccurFrom m s start := by
  unfold indexOfFrom NoOccurFrom
  constructor
  · intro h j hj hocc
    simp only [Option.map_eq_none'] at h
    exact (indexOf_none_iff.mp h) _ (occursAt_drop_of_le hj hocc)
  · intro h
    simp only [Option.map_eq_none']
    rw [indexOf_none_iff]
    intro i hocc
    exact h (i + start) (by omega) (occursAt_of_drop hocc)

/-! ## Idempotence of the reload-payload strip -/

lemma reloadCode_drop (s : List Char) :
    ∃ K, reloadCode s = s.drop K ∧
      (∀ i, indexOf headerEndMarker s = some i → i + headerEndMarker.length ≤ K) := by
  obtain ⟨k1, h1, hb⟩ := stripUserscriptHeader_drop s
  obtain ⟨k2, h2⟩ := stripHotReloadClient_drop (stripUserscriptHeader s)
  refine ⟨k2 + k1, ?_, ?_⟩
  · unfold reloadCode
    rw [h2, h1, List.drop_drop]
    congr 1
    omega
  · intro i hi
    have := hb i hi
    omega

lemma indexOf_headerEnd_reloadCode_none {s : List Char}
    (hc : countOccurrences headerEndMarker s ≤ 1) :
    indexOf headerEndMarker (reloadCode s) = none := by
  obtain ⟨K, hK, hbound⟩ := reloadCode_drop s
  rw [indexOf_none_iff]
  intro j hocc
  rw [hK] at hocc
  have hs : occursAt headerEndMarker s (K + j) := by
    have := occursAt_of_drop hocc
    rwa [Nat.add_comm] at this
  cases hx : indexOf headerEndMarker s with
  | none => exact (indexOf_none_iff.mp hx _) hs
  | some i =>
    have hi : occursAt headerEndMarker s i := indexOf_some_occurs hx
    have heq : i = K + j :=
      occursAt_unique_of_count_le_one headerEndMarker_ne_nil hc hi hs
    have hbd := hbound i hx
    have hlen : 0 < headerEndMarker.length := by decide
    omega

lemma stripHotReloadClient_reloadCode_fix {s : List Char}
    (hc : countOccurrences hotReloadMarker s ≤ 1) :
    stripHotReloadClient (reloadCode s) = reloadCode s := by
  obtain ⟨k1, hcode, _⟩ := stripUserscriptHeader_drop s
  have hrc : reloadCode s = stripHotReloadClient (stripUserscriptHeader s) := rfl
  cases hx : indexOf hotReloadMarker (stripUserscriptHeader s) with
  | none =>
    rw [hrc, stripHotReloadClient_eq_of_none hx, stripHotReloadClient_eq_of_none hx]
  | some j =>
    cases hy : indexOfFrom hotReloadEndMarker (stripUserscriptHeader s) j with
    | none =>
      have heq := stripHotReloadClient_eq_of_noEnd hx hy
      rw [hrc, heq, heq]
    | some k =>
      have heq := stripHotReloadClient_eq_of_some hx hy
      obtain ⟨k2, hk2⟩ :=
        trimStart_eq_drop_ex ((stripUserscriptHeader s).drop (k + hotReloadEndMarker.length))
      have hkj : j ≤ k := by
        have := indexOfFrom_eq_some_iff.mp hy
        exact this.1
      have ht : reloadCode s
          = (stripUserscriptHeader s).drop (k2 + (k + hotReloadEndMarker.length)) := by
        rw [hrc, heq, hk2, List.drop_drop]
        congr 1
        omega
      apply stripHotReloadClient_eq_of_none
      rw [indexOf_none_iff]
      intro a hocc
      rw [ht] at hocc
      have h1 : occursAt hotReloadMarker (stripUserscriptHeader s)
          (k2 + (k + hotReloadEndMarker.length) + a) := by
        have := occursAt_of_drop hocc
        rwa [Nat.add_comm] at this
      have h2 : occursAt hotReloadMarker (stripUserscriptHeader s) j :=
        indexOf_some_occurs hx
      have hs1 : occursAt hotReloadMarker s (k1 + (k2 + (k + hotReloadEndMarker.length) + a)) := by
        rw [hcode] at h1
        have := occursAt_of_drop h1
        rwa [Nat.add_comm] at this
      have hs2 : occursAt hotReloadMarker s (k1 + j) := by
        rw [hcode] at h2
        have := occursAt_of_drop h2
        rwa [Nat.add_comm] at this
      have heq2 := occursAt_unique_of_count_le_one hotReloadMarker_ne_nil hc hs1 hs2
      have hlen : 0 < hotReloadEndMarker.length := by decide
      omega

/-- C3 (amended): the reload-payload strip follows the two-stage rule: if the
header-end marker occurs, the code becomes everything after its first
occurrence with leading whitespace trimmed; the second stage then applies to
that remainder: if the client-runtime start marker occurs in it and the
closing construct occurs at-or-after that marker, the code becomes everything
after the first such closing construct, trimmed again, and otherwise the
remainder is kept unchanged.  If the header-end marker is absent, the whole
artifact is used as the input of the second stage (so it is returned as-is
exactly when the second stage finds no complete client-runtime block in it). -/
theorem claim_C3_reloadCode_two_stage (s : List Char) :
    (∀ i, FirstOccursAt headerEndMarker s i →
        reloadCode s
          = stripHotReloadClient (trimStart (s.drop (i + headerEndMarker.length))))
    ∧ ((∀ i, ¬ occursAt headerEndMarker s i) → reloadCode s = stripHotReloadClient s)
    ∧ (∀ c, (∀ i, ¬ occursAt hotReloadMarker c i) → stripHotReloadClient c = c)
    ∧ (∀ c j k, FirstOccursAt hotReloadMarker c j →
        FirstOccursFromAt hotReloadEndMarker c j k →
        stripHotReloadClient c = trimStart (c.drop (k + hotReloadEndMarker.length)))
    ∧ (∀ c j, FirstOccursAt hotReloadMarker c j → NoOccurFrom hotReloadEndMarker c j →
        stripHotReloadClient c = c) := by
  refine ⟨?_, ?_, ?_, ?_, ?_⟩
  · intro i hi
    unfold reloadCode
    rw [stripUserscriptHeader_eq_of_some (indexOf_eq_some_iff_first.mpr hi)]
  · intro h
    unfold reloadCode
    rw [stripUserscriptHeader_eq_of_none (indexOf_none_iff.mpr h)]
  · intro c h
    exact stripHotReloadClient_eq_of_none (indexOf_none_iff.mpr h)
  · intro c j k h1 h2
    exact stripHotReloadClient_eq_of_some (indexOf_eq_some_iff_first.mpr h1)
      (indexOfFrom_eq_some_iff.mpr h2)
  · intro c j h1 h2
    exact stripHotReloadClient_eq_of_noEnd (indexOf_eq_some_iff_first.mpr h1)
      (indexOfFrom_eq_none_iff.mpr h2)

/-- C3 counterexample: for an artifact without the header-end marker but with
a complete client-runtime block, the payload is NOT the whole artifact as-is:
the second stage still strips the client-runtime block in that case. -/
theorem claim_C3_counterexample :
    indexOf headerEndMarker
        "// Hot reload client - injected in development mode\x7d)();X".toList = none
    ∧ reloadCode "// Hot reload client - injected in development mode\x7d)();X".toList
      ≠ "// Hot reload client - injected in development mode\x7d)();X".toList := by
  constructor
  · decide
  · decide

/-- Witness for C3: each hypothesis of `claim_C3_reloadCode_two_stage` is
satisfiable at concrete inputs. -/
theorem claim_C3_witness :
    (reloadCode "a// ==/UserScript== b".toList
        = stripHotReloadClient
            (trimStart (List.drop (1 + headerEndMarker.length) "a// ==/UserScript== b".toList)))
    ∧ reloadCode "xy".toList = stripHotReloadClient "xy".toList
    ∧ stripHotReloadClient "xy".toList = "xy".toList
    ∧ stripHotReloadClient
        "// Hot reload client - injected in development mode\x7d)();Z".toList
        = trimStart (List.drop (51 + hotReloadEndMarker.length)
            "// Hot reload client - injected in development mode\x7d)();Z".toList)
    ∧ stripHotReloadClient "// Hot reload client - injected in development mode".toList
        = "// Hot reload client - injected in development mode".toList :=
  ⟨(claim_C3_reloadCode_two_stage "a// ==/UserScript== b".toList).1 1
     (indexOf_eq_some_iff_first.mp (by decide)),
   (claim_C3_reloadCode_two_stage "xy".toList).2.1 (indexOf_none_iff.mp (by decide)),
   (claim_C3_reloadCode_two_stage "xy".toList).2.2.1 "xy".toList
     (indexOf_none_iff.mp (by decide)),
   (claim_C3_reloadCode_two_stage "xy".toList).2.2.2.1
     "// Hot reload client - injected in development mode\x7d)();Z".toList 0 51
     (indexOf_eq_some_iff_first.mp (by decide)) (indexOfFrom_eq_some_iff.mp (by decide)),
   (claim_C3_reloadCode_two_stage "xy".toList).2.2.2.2
     "// Hot reload client - injected in development mode".toList 0
     (indexOf_eq_some_iff_first.mp (by decide)) (indexOfFrom_eq_none_iff.mp (by decide))⟩

/-- C4 (amended): the strip is idempotent on every artifact text in which the
header-end marker occurs at most once and the client-runtime start marker
occurs at most once (in particular on every built artifact); and on every
artifact with no client-runtime start marker the strip returns the artifact
unchanged after header removal. -/
theorem claim_C4_strip_idempotent (s : List Char) :
    (countOccurrences headerEndMarker s ≤ 1 → countOccurrences hotReloadMarker s ≤ 1 →
        reloadCode (reloadCode s) = reloadCode s)
    ∧ ((∀ i, ¬ occursAt hotReloadMarker s i) → reloadCode s = stripUserscriptHeader s) := by
  constructor
  · intro h1 h2
    have ha : stripUserscriptHeader (reloadCode s) = reloadCode s :=
      stripUserscriptHeader_eq_of_none (indexOf_headerEnd_reloadCode_none h1)
    show stripHotReloadClient (stripUserscriptHeader (reloadCode s)) = reloadCode s
    rw [ha]
    exact stripHotReloadClient_reloadCode_fix h2
  · intro h
    obtain ⟨k1, hcode, _⟩ := stripUserscriptHeader_drop s
    have hnone : indexOf hotReloadMarker (stripUserscriptHeader s) = none := by
      rw [indexOf_none_iff]
      intro i hocc
      rw [hcode] at hocc
      exact h _ (occursAt_of_drop hocc)
    exact stripHotReloadClient_eq_of_none hnone

/-- C4 counterexample: on an artifact text containing the header-end marker
twice the strip is NOT idempotent, so the claim's universally quantified
idempotence fails. -/
theorem claim_C4_counterexample :
    reloadCode (reloadCode "// ==/UserScript==X// ==/UserScript==Y".toList)
      ≠ reloadCode "// ==/UserScript==X// ==/UserScript==Y".toList := by
  decide

/-- Witness for C4: the hypotheses of `claim_C4_strip_idempotent` hold at a
concrete artifact. -/
theorem claim_C4_witness :
    (countOccurrences headerEndMarker "// ==/UserScript==\nabc".toList ≤ 1
     ∧ countOccurrences hotReloadMarker "// ==/UserScript==\nabc".toList ≤ 1
     ∧ reloadCode (reloadCode "// ==/UserScript==\nabc".toList)
        = reloadCode "// ==/UserScript==\nabc".toList)
    ∧ reloadCode "plain".toList = stripUserscriptHeader "plain".toList :=
  ⟨⟨by decide, by decide,
    (claim_C4_strip_idempotent "// ==/UserScript==\nabc".toList).1 (by decide) (by decide)⟩,
   (claim_C4_strip_idempotent "plain".toList).2 (indexOf_none_iff.mp (by decide))⟩

lemma coordInv_triggerRebuild {s : RebuildState} (h : CoordInv s) :
    CoordInv (triggerRebuild s) := by
  unfold CoordInv triggerRebuild at *
  by_cases hr : s.rebuilding <;> simp [hr] at * <;> omega

lemma coordInv_finishBuild {s : RebuildState} (h : CoordInv s) (hr : s.rebuilding = true)
    (success : Bool) : CoordInv (finishBuild success s) := by
  unfold CoordInv finishBuild at *
  rw [hr] at h
  simp only [if_true] at h
  by_cases hn : s.needsRebuild <;> simp [hn, triggerRebuild] <;> omega

lemma coordInv_runEvents {s : RebuildState} {es : List CoordEvent}
    (h : CoordInv s) (hv : validFrom s es = true) : CoordInv (runEvents s es) := by
  induction es generalizing s with
  | nil => exact h
  | cons e es ih =>
    unfold validFrom at hv
    rw [Bool.and_eq_true] at hv
    cases e with
    | trigger => exact ih (coordInv_triggerRebuild h) hv.2
    | done success => exact ih (coordInv_finishBuild h hv.1 success) hv.2

lemma runEvents_triggers_while_busy {s : RebuildState} (hr : s.rebuilding = true) :
    ∀ n : Nat,
      (runEvents s (List.replicate n CoordEvent.trigger)).started = s.started
      ∧ (runEvents s (List.replicate n CoordEvent.trigger)).completed = s.completed
      ∧ (runEvents s (List.replicate n CoordEvent.trigger)).rebuilding = true := by
  intro n
  induction n generalizing s with
  | zero => exact ⟨rfl, rfl, hr⟩
  | succ n ih =>
    have hstep : coordStep s CoordEvent.trigger = { s with needsRebuild := true } := by
      simp [coordStep, triggerRebuild, hr]
    have hrun : runEvents s (List.replicate (n + 1) CoordEvent.trigger)
        = runEvents { s with needsRebuild := true } (List.replicate n CoordEvent.trigger) := by
      rw [List.replicate_succ]
      show runEvents (coordStep s CoordEvent.trigger) (List.replicate n CoordEvent.trigger) = _
      rw [hstep]
    rw [hrun]
    exact @ih { s with needsRebuild := true } hr

/-- C1: coalescing of the rebuild coordinator.  (i) Along every valid event
sequence from the initial state at most one build is in flight
(`started ≤ completed + 1`); (ii) a trigger arriving while a build is in
flight only sets the pending flag and starts no build; (iii) any number of
triggers during one in-flight build leave the started-count unchanged and
schedule at most one follow-up build, which starts only at the completion
step of the in-flight build; (iv) two triggers fired before the first build
settles produce exactly 2 builds in total. -/
theorem claim_C1_rebuild_coalescing :
    (∀ es, validFrom initialRebuildState es = true →
      (runEvents initialRebuildState es).started
        ≤ (runEvents initialRebuildState es).completed + 1)
    ∧ (∀ s : RebuildState, s.rebuilding = true →
        triggerRebuild s = { s with needsRebuild := true })
    ∧ (∀ (s : RebuildState) (n : Nat), s.rebuilding = true →
        (runEvents s (List.replicate n CoordEvent.trigger)).started = s.started
        ∧ ∀ success, (finishBuild success
              (runEvents s (List.replicate n CoordEvent.trigger))).started ≤ s.started + 1)
    ∧ (validFrom initialRebuildState
        [CoordEvent.trigger, CoordEvent.trigger, CoordEvent.done true, CoordEvent.done true]
        = true
      ∧ runEvents initialRebuildState
          [CoordEvent.trigger, CoordEvent.trigger, CoordEvent.done true, CoordEvent.done true]
        = { rebuilding := false, needsRebuild := false,
            started := 2, completed := 2, broadcasts := 2, buildErrors := 0 }) := by
  refine ⟨?_, ?_, ?_, ?_, ?_⟩
  · intro es hv
    have h0 : CoordInv initialRebuildState := by
      unfold CoordInv initialRebuildState
      simp
    have := coordInv_runEvents h0 hv
    unfold CoordInv at this
    by_cases hb : (runEvents initialRebuildState es).rebuilding <;> simp [hb] at this <;> omega
  · intro s hr
    simp [triggerRebuild, hr]
  · intro s n hr
    obtain ⟨h1, h2, h3⟩ := runEvents_triggers_while_busy hr n
    refine ⟨h1, ?_⟩
    intro success
    unfold finishBuild
    by_cases hn : (runEvents s (List.replicate n CoordEvent.trigger)).needsRebuild <;>
      simp [hn, triggerRebuild] <;> omega
  · decide
  · decide

/-- Witness for C1: the hypotheses of `claim_C1_rebuild_coalescing` hold at
concrete inputs. -/
theorem claim_C1_witness :
    ((runEvents initialRebuildState [CoordEvent.trigger]).started
        ≤ (runEvents initialRebuildState [CoordEvent.trigger]).completed + 1)
    ∧ triggerRebuild
        { rebuilding := true, needsRebuild := false,
          started := 1, completed := 0, broadcasts := 0, buildErrors := 0 }
      = { rebuilding := true, needsRebuild := true,
          started := 1, completed := 0, broadcasts := 0, buildErrors := 0 }
    ∧ (runEvents
        { rebuilding := true, needsRebuild := false,
          started := 1, completed := 0, broadcasts := 0, buildErrors := 0 }
        (List.replicate 3 CoordEvent.trigger)).started = 1
    ∧ (finishBuild true (runEvents
        { rebuilding := true, needsRebuild := false,
          started := 1, completed := 0, broadcasts := 0, buildErrors := 0 }
        (List.replicate 3 CoordEvent.trigger))).started ≤ 1 + 1 :=
  ⟨claim_C1_rebuild_coalescing.1 [CoordEvent.trigger] (by decide),
   claim_C1_rebuild_coalescing.2.1 _ rfl,
   (claim_C1_rebuild_coalescing.2.2.1 _ 3 rfl).1,
   (claim_C1_rebuild_coalescing.2.2.1 _ 3 rfl).2 true⟩

/-- C5: when the awaited `loadConfig`/`build` fails, the error is reported and
no broadcast occurs for that attempt, while the `busy`/`pending` bookkeeping
proceeds exactly as in the successful case: `rebuilding` is cleared (and is
set again exactly when `needsRebuild` was pending), exactly one follow-up
build starts iff `needsRebuild` was set, and the coordinator keeps satisfying
its invariant over any further valid events — the failure is absorbed inside
`rebuild` and never escapes to the watch loop. -/
theorem claim_C5_build_failure_recovery (s : RebuildState) (hr : s.rebuilding = true) :
    (finishBuild false s).broadcasts = s.broadcasts
    ∧ (finishBuild false s).buildErrors = s.buildErrors + 1
    ∧ (finishBuild false s).rebuilding = s.needsRebuild
    ∧ (finishBuild false s).started = s.started + (if s.needsRebuild then 1 else 0)
    ∧ (finishBuild false s).needsRebuild = false
    ∧ (finishBuild false s).rebuilding = (finishBuild true s).rebuilding
    ∧ (finishBuild false s).needsRebuild = (finishBuild true s).needsRebuild
    ∧ (finishBuild false s).started = (finishBuild true s).started
    ∧ (finishBuild false s).completed = (finishBuild true s).completed
    ∧ ∀ es, validFrom s es = true → CoordInv s → CoordInv (runEvents s es) := by
  refine ⟨?_, ?_, ?_, ?_, ?_, ?_, ?_, ?_, ?_, fun es hv hinv => coordInv_runEvents hinv hv⟩
  all_goals unfold finishBuild
  all_goals by_cases hn : s.needsRebuild <;> simp [hn, triggerRebuild]

/-- Witness for C5: the failure bookkeeping at a concrete busy state with a
pending rebuild. -/
theorem claim_C5_witness :
    (finishBuild false
        { rebuilding := true, needsRebuild := true,
          started := 1, completed := 0, broadcasts := 0, buildErrors := 0 }).broadcasts = 0
    ∧ (finishBuild false
        { rebuilding := true, needsRebuild := true,
          started := 1, completed := 0, broadcasts := 0, buildErrors := 0 }).buildErrors = 0 + 1
    ∧ (finishBuild false
        { rebuilding := true, needsRebuild := true,
          started := 1, completed := 0, broadcasts := 0, buildErrors := 0 }).started
        = 1 + (if ({ rebuilding := true, needsRebuild := true, started := 1, completed := 0,
                     broadcasts := 0, buildErrors := 0 } : RebuildState).needsRebuild
               then 1 else 0) :=
  ⟨(claim_C5_build_failure_recovery _ rfl).1,
   (claim_C5_build_failure_recovery _ rfl).2.1,
   (claim_C5_build_failure_recovery _ rfl).2.2.2.1⟩

/-- C2: the build issued by a rebuild uses `loadConfig` applied to the
current file-system state — the invocation is independent of the config
captured at startup, succeeds with exactly the freshly loaded config, and
fails exactly when the fresh load fails — so an edit to the configuration
file takes effect on the build started by the next triggering event. -/
theorem claim_C2_config_reread
    (startupConfig altStartupConfig : UserscriptConfig)
    (files : String → Option RawConfigModule) (configPath : String) (wsPort : Nat) :
    rebuildBuildInvocation startupConfig files configPath wsPort
      = rebuildBuildInvocation altStartupConfig files configPath wsPort
    ∧ (∀ cfg, loadConfig files configPath = Except.ok cfg →
        rebuildBuildInvocation startupConfig files configPath wsPort
          = Except.ok { config := cfg, dev := true, hotReloadPort := wsPort })
    ∧ (∀ err, loadConfig files configPath = Except.error err →
        rebuildBuildInvocation startupConfig files configPath wsPort
          = Except.error err) := by
  refine ⟨rfl, ?_, ?_⟩
  · intro cfg h
    unfold rebuildBuildInvocation
    rw [h]
    rfl
  · intro err h
    unfold rebuildBuildInvocation
    rw [h]
    rfl

/-- Witness for C2: after an edit, a rebuild builds with the fresh config,
not the startup config. -/
theorem claim_C2_witness :
    rebuildBuildInvocation
        { metadata := { name := "Old" } }
        (fun p => if p == "userscript.config.ts"
                  then some { metadata := some { name := "Test" } } else none)
        "userscript.config.ts" 3001
      = Except.ok { config := { metadata := { name := "Test" } },
                    dev := true, hotReloadPort := 3001 } :=
  (claim_C2_config_reread { metadata := { name := "Old" } } { metadata := { name := "Old" } }
      (fun p => if p == "userscript.config.ts"
                then some { metadata := some { name := "Test" } } else none)
      "userscript.config.ts" 3001).2.1
    { metadata := { name := "Test" } } (by rfl)

/-- C6: the broadcast sends the serialized reload payload to exactly the
connected clients whose transport state is OPEN (`readyState = 1`); the
others are skipped; the number of deliveries is the number of open clients;
with 3 connected clients one of which is closed, exactly the 2 open ones
receive the payload. -/
theorem claim_C6_broadcast_open_only (clients : List WsClient) (code : List Char) :
    (∀ c, c ∈ clients → c.readyState = 1 →
        (c.clientId, reloadMessage code) ∈ broadcastReload clients code)
    ∧ (∀ p, p ∈ broadcastReload clients code →
        p.2 = reloadMessage code
        ∧ ∃ c, c ∈ clients ∧ c.readyState = 1 ∧ p.1 = c.clientId)
    ∧ (broadcastReload clients code).length
        = List.countP (fun c => c.readyState == 1) clients
    ∧ (broadcastReload [⟨1, 1⟩, ⟨2, 3⟩, ⟨3, 1⟩] code).length = 2
    ∧ (broadcastReload [⟨1, 1⟩, ⟨2, 3⟩, ⟨3, 1⟩] code).map Prod.fst = [1, 3] := by
  refine ⟨?_, ?_, ?_, rfl, rfl⟩
  · intro c hc hopen
    unfold broadcastReload
    apply List.mem_map_of_mem
    rw [List.mem_filter]
    exact ⟨hc, by simp [hopen]⟩
  · intro p hp
    unfold broadcastReload at hp
    rw [List.mem_map] at hp
    obtain ⟨c, hc, rfl⟩ := hp
    rw [List.mem_filter] at hc
    exact ⟨rfl, c, hc.1, by simpa using hc.2, rfl⟩
  · unfold broadcastReload
    rw [List.length_map, ← List.countP_eq_length_filter]

/-- Witness for C6: an open client receives the payload. -/
theorem claim_C6_witness :
    ((5 : Nat), reloadMessage "x".toList) ∈ broadcastReload [⟨5, 1⟩] "x".toList :=
  (claim_C6_broadcast_open_only [⟨5, 1⟩] "x".toList).1 ⟨5, 1⟩ (by simp) rfl

/-- C7: on a payload of type "reload" (with truthy code), the handler never
lets an exception escape and never closes the channel; when a cleanup
capability is present it is invoked first; a throwing cleanup is logged as a
warning and does not prevent execution of the received code; the received
code always runs, and a throwing execution is logged as an error. -/
theorem claim_C7_reload_error_handling (ctx : ReloadContext) (data : MessageData)
    (htype : data.type = "reload") (hcode : data.code ≠ "") :
    (onMessageReload ctx data).2 = JsOutcome.ok
    ∧ ClientAction.closeChannel ∉ (onMessageReload ctx data).1
    ∧ (ctx.cleanup ≠ none →
        (onMessageReload ctx data).1.head? = some ClientAction.invokeCleanup)
    ∧ (ctx.cleanup = some JsOutcome.throws →
        ClientAction.logCleanupWarning ∈ (onMessageReload ctx data).1
        ∧ ClientAction.execCode ∈ (onMessageReload ctx data).1)
    ∧ ClientAction.execCode ∈ (onMessageReload ctx data).1
    ∧ (ctx.execution = JsOutcome.throws →
        ClientAction.logExecError ∈ (onMessageReload ctx data).1) := by
  have hguard : onMessageReload ctx data = handleReload ctx := by
    unfold onMessageReload
    simp [htype, hcode]
  rw [hguard]
  obtain ⟨cleanup, execution⟩ := ctx
  cases cleanup with
  | none => cases execution <;> decide
  | some o => cases o <;> cases execution <;> decide

/-- Witness for C7: a throwing cleanup together with a throwing execution
still yields a normal return with the code executed. -/
theorem claim_C7_witness :
    (onMessageReload ⟨some JsOutcome.throws, JsOutcome.throws⟩ ⟨"reload", "x"⟩).2
      = JsOutcome.ok
    ∧ ClientAction.execCode
        ∈ (onMessageReload ⟨some JsOutcome.throws, JsOutcome.throws⟩ ⟨"reload", "x"⟩).1 :=
  ⟨(claim_C7_reload_error_handling ⟨some JsOutcome.throws, JsOutcome.throws⟩
      ⟨"reload", "x"⟩ rfl (by decide)).1,
   (claim_C7_reload_error_handling ⟨some JsOutcome.throws, JsOutcome.throws⟩
      ⟨"reload", "x"⟩ rfl (by decide)).2.2.2.2.1⟩

/-- C8: the serving endpoint contract: `/` or `/<outFile>` with an existing
artifact give 200 text/javascript with the permissive CORS header and the
artifact as body; the same paths give 404 text/plain when the file is
absent and 500 text/plain on a read error; every other path gives 404
text/plain. -/
theorem claim_C8_http_contract (outFile url : String) (file : ArtifactFileState) :
    ((url = "/" ++ outFile ∨ url = "/") →
      (∀ text, file = ArtifactFileState.content text →
        handleRequest outFile file url
          = { status := 200, contentType := "text/javascript",
              accessControlAllowOrigin := some "*", body := text })
      ∧ (file = ArtifactFileState.absent →
        handleRequest outFile file url
          = { status := 404, contentType := "text/plain",
              accessControlAllowOrigin := none, body := "Userscript not found" })
      ∧ (file = ArtifactFileState.readError →
        handleRequest outFile file url
          = { status := 500, contentType := "text/plain",
              accessControlAllowOrigin := none, body := "Error reading userscript" }))
    ∧ (¬ (url = "/" ++ outFile ∨ url = "/") →
      handleRequest outFile file url
        = { status := 404, contentType := "text/plain",
            accessControlAllowOrigin := none, body := "Not found" }) := by
  constructor
  · intro hmatch
    have hb : (url == "/" ++ outFile || url == "/") = true := by
      rcases hmatch with h | h <;> simp [h]
    refine ⟨?_, ?_, ?_⟩
    · intro text hfile
      subst hfile
      simp [handleRequest, hb]
    · intro hfile
      subst hfile
      simp [handleRequest, hb]
    · intro hfile
      subst hfile
      simp [handleRequest, hb]
  · intro hmatch
    push_neg at hmatch
    have hb : (url == "/" ++ outFile || url == "/") = false := by
      simp [hmatch.1, hmatch.2]
    simp [handleRequest, hb]

/-- Witness for C8: a hit on `/` with an existing artifact and a miss on an
unknown path. -/
theorem claim_C8_witness :
    handleRequest "bundle.user.js" (ArtifactFileState.content "abc") "/"
      = { status := 200, contentType := "text/javascript",
          accessControlAllowOrigin := some "*", body := "abc" }
    ∧ handleRequest "bundle.user.js" (ArtifactFileState.content "abc") "/nope"
      = { status := 404, contentType := "text/plain",
          accessControlAllowOrigin := none, body := "Not found" } :=
  ⟨((claim_C8_http_contract "bundle.user.js" "/"
        (ArtifactFileState.content "abc")).1 (Or.inr rfl)).1 "abc" rfl,
   (claim_C8_http_contract "bundle.user.js" "/nope"
        (ArtifactFileState.content "abc")).2 (by decide)⟩

/-! ## C9: the generated header always contains the header-end marker -/

lemma joinLines_cons_ne_nil {l : List Char} {ls : List (List Char)} (h : ls ≠ []) :
    joinLines (l :: ls) = l ++ '\n' :: joinLines ls := by
  cases ls with
  | nil => exact absurd rfl h
  | cons y ys => rfl

lemma joinLines_append_pair :
    ∀ (ys : List (List Char)) (a : List Char), ys ≠ [] →
      ∃ pre : List Char, joinLines (ys ++ [a, []]) = pre ++ '\n' :: (a ++ ['\n']) := by
  intro ys
  induction ys with
  | nil =>
    intro a h
    exact absurd rfl h
  | cons y ys ih =>
    intro a _
    cases ys with
    | nil =>
      refine ⟨y, ?_⟩
      show joinLines [y, a, []] = _
      rw [joinLines_cons_ne_nil (by simp), joinLines_cons_ne_nil (by simp)]
      rfl
    | cons z zs =>
      obtain ⟨pre, hpre⟩ := ih a (by simp)
      refine ⟨y ++ '\n' :: pre, ?_⟩
      have hsplit : (y :: z :: zs) ++ [a, []] = y :: ((z :: zs) ++ [a, []]) := rfl
      rw [hsplit, joinLines_cons_ne_nil (by simp), hpre]
      simp

lemma headerLines_shape (m : UserscriptMetadata) :
    ∃ body : List (List Char), body ≠ [] ∧
      headerLines m
        = "// ==UserScript==".toList :: (body ++ ["// ==/UserScript==".toList, []]) := by
  refine ⟨addLineStr "name" (some m.name)
      ++ addLineStr "namespace" m.nameSpace
      ++ addLineStr "version" m.version
      ++ addLineStr "description" m.description
      ++ addLineStr "author" m.author
      ++ addLine "match" m.match_
      ++ addLine "exclude" m.exclude
      ++ addLine "include" m.include_
      ++ addLineStr "icon" m.icon
      ++ addLine "grant" m.grant
      ++ addLine "require" m.require
      ++ resourceLines m.resource
      ++ addLine "connect" m.connect
      ++ addLineStr "run-at" m.runAt
      ++ addLineStr "sandbox" m.sandbox
      ++ (if m.noframes then ["// @noframes".toList] else [])
      ++ addLineStr "updateURL" m.updateURL
      ++ addLineStr "downloadURL" m.downloadURL
      ++ addLineStr "supportURL" m.supportURL, ?_, ?_⟩
  · simp [addLineStr, addLine]
  · simp [headerLines, List.append_assoc]

lemma generateHeader_shape (m : UserscriptMetadata) :
    ∃ pre : List Char,
      generateHeader m
        = "// ==UserScript==".toList
          ++ '\n' :: (pre ++ '\n' :: (headerEndMarker ++ ['\n'])) := by
  obtain ⟨body, hne, hshape⟩ := headerLines_shape m
  obtain ⟨pre, hpre⟩ := joinLines_append_pair body "// ==/UserScript==".toList hne
  refine ⟨pre, ?_⟩
  unfold generateHeader
  rw [hshape, joinLines_cons_ne_nil (by simp), hpre]
  rfl

lemma occursAt_cons_marker {t X mrk : List Char} :
    occursAt mrk (t ++ '\n' :: (mrk ++ X)) (t.length + 1) := by
  unfold occursAt
  have h1 : t ++ '\n' :: (mrk ++ X) = (t ++ ['\n']) ++ (mrk ++ X) := by simp
  have h2 : t.length + 1 = (t ++ ['\n']).length := by simp
  rw [h1, h2, List.drop_left]
  exact List.prefix_append mrk X

/-- C9: for every metadata record (the `name` field is required by the
config type), the generated header's first line is `// ==UserScript==` and
its last two lines are `// ==/UserScript==` followed by an empty line;
consequently every artifact the builder produces — the banner followed by
anything the bundler emits — contains the header-end marker that the
reload-payload strip searches for, so the strip's header-absent fallback is
never taken on such artifacts. -/
theorem claim_C9_header_marker_present (m : UserscriptMetadata) :
    ("// ==UserScript==\n".toList <+: generateHeader m)
    ∧ ("\n// ==/UserScript==\n".toList <:+ generateHeader m)
    ∧ ∀ (dev : Bool) (hotReloadPort : Nat) (compiledCode : List Char),
        ∃ i, occursAt headerEndMarker (builtArtifact m dev hotReloadPort compiledCode) i
          ∧ (indexOf headerEndMarker
              (builtArtifact m dev hotReloadPort compiledCode)).isSome = true := by
  obtain ⟨pre, hshape⟩ := generateHeader_shape m
  refine ⟨?_, ?_, ?_⟩
  · rw [hshape]
    refine ⟨pre ++ '\n' :: (headerEndMarker ++ ['\n']), ?_⟩
    have hfl : "// ==UserScript==\n".toList = "// ==UserScript==".toList ++ ['\n'] := by
      decide
    rw [hfl]
    simp
  · rw [hshape]
    refine ⟨"// ==UserScript==".toList ++ '\n' :: pre, ?_⟩
    have hll : "\n// ==/UserScript==\n".toList = '\n' :: (headerEndMarker ++ ['\n']) := by
      decide
    rw [hll]
    simp
  · intro dev hotReloadPort compiledCode
    have hart : builtArtifact m dev hotReloadPort compiledCode
        = ("// ==UserScript==".toList ++ '\n' :: pre)
          ++ '\n' :: (headerEndMarker
            ++ (['\n'] ++ ((if dev && hotReloadPort != 0
                  then '\n' :: getHotReloadClient hotReloadPort else [])
                ++ compiledCode))) := by
      unfold builtArtifact bannerText
      rw [hshape]
      simp
    have hocc : occursAt headerEndMarker (builtArtifact m dev hotReloadPort compiledCode)
        (("// ==UserScript==".toList ++ '\n' :: pre).length + 1) := by
      rw [hart]
      exact occursAt_cons_marker
    exact ⟨_, hocc, indexOf_isSome_of_occurs hocc⟩

/-! ## C10: shape of the injected client and the strip round-trip -/

lemma occursAt_append_ge {m A B : List Char} {i : Nat}
    (h : occursAt m (A ++ B) i) (hge : A.length ≤ i) :
    occursAt m B (i - A.length) := by
  unfold occursAt at *
  rw [List.drop_append_eq_append_drop] at h
  rwa [List.drop_eq_nil_of_le hge, List.nil_append] at h

lemma drop_append_left_len (x y : List Char) (j : Nat) :
    (x ++ y).drop (x.length + j) = y.drop j := by
  rw [List.drop_append_eq_append_drop]
  have e1 : x.drop (x.length + j) = [] := List.drop_eq_nil_of_le (by omega)
  have e2 : x.length + j - x.length = j := by omega
  rw [e1, e2, List.nil_append]

lemma noOccur_lt_append {m A B : List Char} {n : Nat}
    (hm : m ≠ []) (hB : m.length - 1 ≤ B.length)
    (h1 : indexOf m (A ++ B.take (m.length - 1)) = none)
    (h2 : ∀ j, j < n → ¬ occursAt m B j) :
    ∀ i, i < A.length + n → ¬ occursAt m (A ++ B) i := by
  intro i hi hocc
  by_cases hcase : A.length ≤ i
  · exact h2 (i - A.length) (by omega) (occursAt_append_ge hocc hcase)
  · push_neg at hcase
    have hmlen : 1 ≤ m.length := List.length_pos.mpr hm
    have hsplit : A ++ B = (A ++ B.take (m.length - 1)) ++ B.drop (m.length - 1) := by
      rw [List.append_assoc, List.take_append_drop]
    rw [hsplit] at hocc
    have hbound : i + m.length ≤ (A ++ B.take (m.length - 1)).length := by
      simp only [List.length_append, List.length_take]
      rw [Nat.min_eq_left hB]
      omega
    exact (indexOf_none_iff.mp h1) i ((occursAt_append_iff hbound).mp hocc)

lemma digitChar_isDigit {d : Nat} (h : d < 10) : (digitChar d).isDigit = true := by
  interval_cases d <;> decide

lemma natToChars_ne_nil (n : Nat) : natToChars n ≠ [] := by
  unfold natToChars natToCharsAux
  split
  · simp
  · simp

lemma natToCharsAux_all_digits :
    ∀ (fuel n : Nat) (c : Char), c ∈ natToCharsAux fuel n → c.isDigit = true := by
  intro fuel
  induction fuel with
  | zero =>
    intro n c hc
    cases hc
  | succ fuel ih =>
    intro n c hc
    unfold natToCharsAux at hc
    split at hc
    · next h =>
      simp at hc
      subst hc
      exact digitChar_isDigit h
    · next h =>
      rw [List.mem_append] at hc
      cases hc with
      | inl hc2 => exact ih (n / 10) c hc2
      | inr hc2 =>
        simp at hc2
        subst hc2
        exact digitChar_isDigit (Nat.mod_lt _ (by omega))

lemma natToChars_all_digits (n : Nat) :
    ∀ c, c ∈ natToChars n → c.isDigit = true :=
  natToCharsAux_all_digits (n + 1) n

lemma occursAt_append3_cases {A mid B needle : List Char} {i : Nat}
    (hne : needle ≠ [])
    (hmid : ∀ c, c ∈ mid → c.isDigit = true)
    (hneed : ∀ c, c ∈ needle → c.isDigit = false)
    (hmidne : mid ≠ [])
    (h : occursAt needle (A ++ (mid ++ B)) i) :
    (i + needle.length ≤ A.length ∧ occursAt needle A i)
    ∨ (A.length + mid.length ≤ i
        ∧ occursAt needle B (i - A.length - mid.length)) := by
  by_cases h1 : i + needle.length ≤ A.length
  · exact Or.inl ⟨h1, (occursAt_append_iff h1).mp h⟩
  · by_cases h2 : A.length + mid.length ≤ i
    · refine Or.inr ⟨h2, ?_⟩
      have hge : occursAt needle (mid ++ B) (i - A.length) :=
        occursAt_append_ge h (by omega)
      exact occursAt_append_ge hge (by omega)
    · exfalso
      push_neg at h1 h2
      by_cases h3 : A.length ≤ i
      · have hd : occursAt needle (mid ++ B) (i - A.length) := occursAt_append_ge h h3
        unfold occursAt at hd
        rw [List.drop_append_eq_append_drop] at hd
        obtain ⟨t, ht⟩ := hd
        cases hmm : mid.drop (i - A.length) with
        | nil =>
          have := congrArg List.length hmm
          simp at this
          omega
        | cons d rest =>
          cases needle with
          | nil => exact hne rfl
          | cons c ncs =>
            rw [hmm] at ht
            simp only [List.cons_append] at ht
            have hcd : c = d := (List.cons.injEq _ _ _ _).mp ht |>.1
            have hdmem : d ∈ mid := by
              apply List.drop_subset (i - A.length)
              rw [hmm]
              exact List.mem_cons_self d rest
            have hno := hneed c (List.mem_cons_self c ncs)
            have hyes := hmid d hdmem
            rw [hcd, hyes] at hno
            cases hno
      · push_neg at h3
        unfold occursAt at h
        obtain ⟨t, ht⟩ := h
        have hS : (A ++ (mid ++ B)).drop i = A.drop i ++ (mid ++ B) := by
          rw [List.drop_append_eq_append_drop]
          have e0 : i - A.length = 0 := by omega
          rw [e0, List.drop_zero]
        rw [hS] at ht
        have ht2 := congrArg (List.drop (A.length - i)) ht
        rw [List.drop_append_eq_append_drop, List.drop_append_eq_append_drop] at ht2
        have e1 : (A.drop i).drop (A.length - i) = [] :=
          List.drop_eq_nil_of_le (by simp)
        have e2 : A.length - i - (A.drop i).length = 0 := by
          simp
        rw [e1, List.nil_append, e2, List.drop_zero] at ht2
        cases hnd : needle.drop (A.length - i) with
        | nil =>
          have := congrArg List.length hnd
          simp at this
          omega
        | cons c ncs =>
          cases mid with
          | nil => exact hmidne rfl
          | cons d mcs =>
            rw [hnd] at ht2
            simp only [List.cons_append] at ht2
            have hcd : c = d := (List.cons.injEq _ _ _ _).mp ht2 |>.1
            have hcmem : c ∈ needle := by
              apply List.drop_subset (A.length - i)
              rw [hnd]
              exact List.mem_cons_self c ncs
            have hno := hneed c hcmem
            have hyes := hmid d (List.mem_cons_self d mcs)
            rw [hcd, hyes] at hno
            cases hno

lemma hotReloadClientSuffix_length : hotReloadClientSuffix.toList.length = 1889 := by rfl

lemma hotReloadClientSuffix_tail :
    hotReloadClientSuffix.toList.drop 1883 = "\x7d)();\n".toList := by rfl

lemma occursAt_endMarker_suffix_1883 :
    occursAt hotReloadEndMarker hotReloadClientSuffix.toList 1883 := by
  unfold occursAt
  rw [hotReloadClientSuffix_tail]
  decide

lemma indexOf_endMarker_suffix :
    indexOf hotReloadEndMarker hotReloadClientSuffix.toList = some 1883 := by
  have hB : indexOf hotReloadEndMarker (hotReloadClientSuffix.toList.drop 945)
      = some 938 := by rfl
  have hA : indexOf hotReloadEndMarker
      (hotReloadClientSuffix.toList.take 945
        ++ (hotReloadClientSuffix.toList.drop 945).take (hotReloadEndMarker.length - 1))
      = none := by rfl
  have hBlen : hotReloadEndMarker.length - 1
      ≤ (hotReloadClientSuffix.toList.drop 945).length := by
    rw [List.length_drop, hotReloadClientSuffix_length]
    decide
  have hmin : ∀ i, i < 1883 →
      ¬ occursAt hotReloadEndMarker hotReloadClientSuffix.toList i := by
    intro i hi
    have hsplit : hotReloadClientSuffix.toList
        = hotReloadClientSuffix.toList.take 945 ++ hotReloadClientSuffix.toList.drop 945 :=
      (List.take_append_drop _ _).symm
    rw [hsplit]
    apply noOccur_lt_append hotReloadEndMarker_ne_nil hBlen hA (indexOf_min hB)
    have htake : (hotReloadClientSuffix.toList.take 945).length = 945 := by
      rw [List.length_take, hotReloadClientSuffix_length]
      decide
    omega
  exact indexOf_eq_some_of occursAt_endMarker_suffix_1883 hmin

lemma uniqueOccur_endMarker_suffix {j : Nat}
    (h : occursAt hotReloadEndMarker hotReloadClientSuffix.toList j) : j = 1883 := by
  have hge : ¬ j < 1883 := fun hlt => indexOf_min indexOf_endMarker_suffix j hlt h
  have hb := occursAt_length_bound h hotReloadEndMarker_ne_nil
  rw [hotReloadClientSuffix_length] at hb
  have hnot1884 : ¬ occursAt hotReloadEndMarker hotReloadClientSuffix.toList 1884 := by
    unfold occursAt
    have h1884 : hotReloadClientSuffix.toList.drop 1884
        = ("\x7d)();\n".toList).drop 1 := by
      rw [← hotReloadClientSuffix_tail, List.drop_drop]
    rw [h1884]
    decide
  have hlen : hotReloadEndMarker.length = 5 := by rfl
  rw [hlen] at hb
  rcases Nat.lt_or_ge j 1884 with hc | hc
  · omega
  · have : j = 1884 := by omega
    subst this
    exact absurd h hnot1884

/-- C10 (amended): the injected client starts, after a leading newline, with
the start-marker line; it contains exactly one occurrence of the closing
construct `\x7d)();`, which is followed by nothing but the final newline of
the template (so it closes the code, with one trailing newline after it);
and for every port and every trailing user code, applying the runtime-block
strip to client-block-plus-user-code yields exactly the user code with
leading whitespace trimmed. -/
theorem claim_C10_client_block_roundtrip (port : Nat) (userCode : List Char) :
    (getHotReloadClient port).take 1 = ['\n']
    ∧ hotReloadMarker <+: (getHotReloadClient port).drop 1
    ∧ (∃ i, occursAt hotReloadEndMarker (getHotReloadClient port) i
        ∧ (∀ j, occursAt hotReloadEndMarker (getHotReloadClient port) j → j = i)
        ∧ (getHotReloadClient port).drop i = "\x7d)();\n".toList)
    ∧ stripHotReloadClient (getHotReloadClient port ++ userCode) = trimStart userCode := by
  have hclient : getHotReloadClient port
      = hotReloadClientPrefix.toList
        ++ (natToChars port ++ hotReloadClientSuffix.toList) := by
    unfold getHotReloadClient
    rw [List.append_assoc]
  have hPdecomp : hotReloadClientPrefix.toList
      = '\n' :: (hotReloadMarker
          ++ "\n(function() \x7b\n  const HOT_RELOAD_PORT = ".toList) := by rfl
  have hPlen : hotReloadClientPrefix.toList.length = 93 := by rfl
  have hPnone : indexOf hotReloadEndMarker hotReloadClientPrefix.toList = none := by rfl
  have hEndND : ∀ c ∈ hotReloadEndMarker, c.isDigit = false := by decide
  refine ⟨?_, ?_, ?_, ?_⟩
  · rw [hclient, hPdecomp]
    rfl
  · rw [hclient, hPdecomp]
    have hd1 : (('\n' :: (hotReloadMarker
          ++ "\n(function() \x7b\n  const HOT_RELOAD_PORT = ".toList))
        ++ (natToChars port ++ hotReloadClientSuffix.toList)).drop 1
        = hotReloadMarker
          ++ ("\n(function() \x7b\n  const HOT_RELOAD_PORT = ".toList
            ++ (natToChars port ++ hotReloadClientSuffix.toList)) := by
      simp
    rw [hd1]
    exact List.prefix_append _ _
  · refine ⟨hotReloadClientPrefix.toList.length + ((natToChars port).length + 1883),
      ?_, ?_, ?_⟩
    · rw [hclient]
      exact occursAt_append_right (occursAt_append_right occursAt_endMarker_suffix_1883)
    · intro j hj
      rw [hclient] at hj
      rcases occursAt_append3_cases hotReloadEndMarker_ne_nil
          (natToChars_all_digits port) hEndND (natToChars_ne_nil port) hj with
        ⟨_, hA⟩ | ⟨hge, hB⟩
      · exact absurd hA (indexOf_none_iff.mp hPnone j)
      · have := uniqueOccur_endMarker_suffix hB
        omega
    · rw [hclient, drop_append_left_len, drop_append_left_len,
        hotReloadClientSuffix_tail]
  · have hPm : indexOf hotReloadMarker hotReloadClientPrefix.toList = some 1 := by rfl
    have h_cu : getHotReloadClient port ++ userCode
        = hotReloadClientPrefix.toList
          ++ (natToChars port ++ (hotReloadClientSuffix.toList ++ userCode)) := by
      rw [hclient]
      simp
    have h1 : indexOf hotReloadMarker (getHotReloadClient port ++ userCode) = some 1 := by
      rw [h_cu]
      exact indexOf_append_some hPm hotReloadMarker_ne_nil
    have hA1len : (hotReloadMarker
        ++ "\n(function() \x7b\n  const HOT_RELOAD_PORT = ".toList).length = 92 := by rfl
    have hA1none : indexOf hotReloadEndMarker (hotReloadMarker
        ++ "\n(function() \x7b\n  const HOT_RELOAD_PORT = ".toList) = none := by rfl
    have hdrop1 : (getHotReloadClient port ++ userCode).drop 1
        = (hotReloadMarker ++ "\n(function() \x7b\n  const HOT_RELOAD_PORT = ".toList)
          ++ (natToChars port ++ (hotReloadClientSuffix.toList ++ userCode)) := by
      rw [h_cu, hPdecomp]
      simp
    have hSu : occursAt hotReloadEndMarker
        (hotReloadClientSuffix.toList ++ userCode) 1883 := by
      have hb : 1883 + hotReloadEndMarker.length ≤ hotReloadClientSuffix.toList.length := by
        rw [hotReloadClientSuffix_length]
        decide
      exact (occursAt_append_iff hb).mpr occursAt_endMarker_suffix_1883
    have hocc2 : occursAt hotReloadEndMarker
        ((hotReloadMarker ++ "\n(function() \x7b\n  const HOT_RELOAD_PORT = ".toList)
          ++ (natToChars port ++ (hotReloadClientSuffix.toList ++ userCode)))
        ((hotReloadMarker
            ++ "\n(function() \x7b\n  const HOT_RELOAD_PORT = ".toList).length
          + ((natToChars port).length + 1883)) :=
      occursAt_append_right (occursAt_append_right hSu)
    have hmin2 : ∀ j, j < (hotReloadMarker
          ++ "\n(function() \x7b\n  const HOT_RELOAD_PORT = ".toList).length
          + ((natToChars port).length + 1883) →
        ¬ occursAt hotReloadEndMarker
          ((hotReloadMarker ++ "\n(function() \x7b\n  const HOT_RELOAD_PORT = ".toList)
            ++ (natToChars port ++ (hotReloadClientSuffix.toList ++ userCode))) j := by
      intro j hjlt hocc
      rcases occursAt_append3_cases hotReloadEndMarker_ne_nil
          (natToChars_all_digits port) hEndND (natToChars_ne_nil port) hocc with
        ⟨_, hA⟩ | ⟨hge, hB⟩
      · exact absurd hA (indexOf_none_iff.mp hA1none j)
      · rw [hA1len] at hjlt hge
        have hjlt2 : j - 92 - (natToChars port).length < 1883 := by omega
        have hb2 : (j - 92 - (natToChars port).length) + hotReloadEndMarker.length
            ≤ hotReloadClientSuffix.toList.length := by
          rw [hotReloadClientSuffix_length]
          have : hotReloadEndMarker.length = 5 := by rfl
          omega
        rw [hA1len] at hB
        have hSocc := (occursAt_append_iff hb2).mp hB
        exact indexOf_min indexOf_endMarker_suffix _ hjlt2 hSocc
    have h2' : indexOf hotReloadEndMarker ((getHotReloadClient port ++ userCode).drop 1)
        = some ((hotReloadMarker
            ++ "\n(function() \x7b\n  const HOT_RELOAD_PORT = ".toList).length
          + ((natToChars port).length + 1883)) := by
      rw [hdrop1]
      exact indexOf_eq_some_of hocc2 hmin2
    have h2 : indexOfFrom hotReloadEndMarker (getHotReloadClient port ++ userCode) 1
        = some (((hotReloadMarker
            ++ "\n(function() \x7b\n  const HOT_RELOAD_PORT = ".toList).length
          + ((natToChars port).length + 1883)) + 1) := by
      unfold indexOfFrom
      rw [h2']
      rfl
    rw [stripHotReloadClient_eq_of_some h1 h2]
    have hregroup : getHotReloadClient port ++ userCode
        = (hotReloadClientPrefix.toList ++ natToChars port)
          ++ (hotReloadClientSuffix.toList ++ userCode) := by
      rw [h_cu]
      simp
    have hKeq : ((hotReloadMarker
          ++ "\n(function() \x7b\n  const HOT_RELOAD_PORT = ".toList).length
        + ((natToChars port).length + 1883)) + 1 + hotReloadEndMarker.length
        = (hotReloadClientPrefix.toList ++ natToChars port).length + 1888 := by
      rw [hA1len, List.length_append, hPlen]
      have : hotReloadEndMarker.length = 5 := by rfl
      omega
    rw [hregroup, hKeq, drop_append_left_len]
    have hSdrop : (hotReloadClientSuffix.toList ++ userCode).drop 1888
        = '\n' :: userCode := by
      rw [List.drop_append_eq_append_drop]
      have hx : hotReloadClientSuffix.toList.drop 1888 = ['\n'] := by
        have hdd : hotReloadClientSuffix.toList.drop 1888
            = (hotReloadClientSuffix.toList.drop 1883).drop 5 := by
          rw [List.drop_drop]
        rw [hdd, hotReloadClientSuffix_tail]
        rfl
      have hy : 1888 - hotReloadClientSuffix.toList.length = 0 := by
        rw [hotReloadClientSuffix_length]
      rw [hx, hy, List.drop_zero]
      rfl
    rw [hSdrop]
    have hws : jsWhitespace '\n' = true := by decide
    unfold trimStart
    rw [List.dropWhile_cons, hws]
    simp

/-- C10 counterexample: the single `\x7d)();` occurrence is NOT located at
the very end of the client string — the template ends with a newline after
it, so the last five characters are `)();` followed by the newline. -/
theorem claim_C10_counterexample :
    (getHotReloadClient 3001).drop
        ((getHotReloadClient 3001).length - hotReloadEndMarker.length)
      ≠ hotReloadEndMarker := by
  have h1 : hotReloadClientPrefix.toList.length = 93 := by rfl
  have h2 : (natToChars 3001).length = 4 := by rfl
  have hlen : (getHotReloadClient 3001).length = 1986 := by
    unfold getHotReloadClient
    rw [List.length_append, List.length_append, hotReloadClientSuffix_length, h1, h2]
  have hm5 : hotReloadEndMarker.length = 5 := by rfl
  rw [hlen, hm5]
  have hgroup : getHotReloadClient 3001
      = (hotReloadClientPrefix.toList ++ natToChars 3001)
        ++ hotReloadClientSuffix.toList := by
    unfold getHotReloadClient
    rfl
  have hlen2 : (hotReloadClientPrefix.toList ++ natToChars 3001).length = 97 := by
    rw [List.length_append, h1, h2]
  have hstep : hotReloadClientSuffix.toList.drop 1884
      = ("\x7d)();\n".toList).drop 1 := by
    rw [← hotReloadClientSuffix_tail, List.drop_drop]
  have hd : (getHotReloadClient 3001).drop 1981 = ")();\n".toList := by
    rw [hgroup]
    have h1981 : (1981 : Nat)
        = (hotReloadClientPrefix.toList ++ natToChars 3001).length + 1884 := by
      rw [hlen2]
    rw [h1981, drop_append_left_len, hstep]
    rfl
  rw [hd]
  decide

/-- Witness for C9: the header of a minimal metadata record starts with the
opening marker line. -/
theorem claim_C9_witness :
    "// ==UserScript==\n".toList <+: generateHeader { name := "Test" } :=
  (claim_C9_header_marker_present { name := "Test" }).1

/-- Witness for C10: the round trip at a concrete port and user code. -/
theorem claim_C10_witness :
    stripHotReloadClient (getHotReloadClient 3001 ++ "abc".toList)
      = trimStart "abc".toList :=
  (claim_C10_client_block_roundtrip 3001 "abc".toList).2.2.2
